import Mathlib

/-!
Verification of `imghdr.py`: a lightweight fallback implementation of the
stdlib `imghdr.what` image-format sniffer.

Embedding notes.
A byte buffer is a `List Nat` (each entry a byte value).  The filesystem is
an abstract map `fs : String → Except Unit Bytes`: `Except.ok c` means
opening the path for binary reading succeeds and the file holds the byte
contents `c` (the source reads `f.read(32)`, i.e. the first 32 bytes of
`c`); `Except.error ()` means the open or read raises.  The optional
Pillow decoder (`Image`/`BytesIO`, lines 18-23 of the source) is an
abstract `Option (Bytes → DecodeOutcome)`: `none` means the import failed
so `Image and BytesIO` is falsy, `some dec` means Pillow is available and
`dec data` describes what `Image.open(BytesIO(data))` / `img.format` does
on `data`: either it raises, or it returns a format value (`img.format` is
a string or Python `None`, modelled as `Option String`).
-/

/-- A byte buffer: Python `bytes`, one `Nat` per byte. -/
abbrev Bytes := List Nat

/-- The `file` argument of `what`: a path string, a bytes object, or
Python `None` (the parameter's implicit third possibility, reachable since
the annotation allows `None`). -/
inductive FileArg where
  | path (p : String)
  | bytes (b : Bytes)
  | none
deriving DecidableEq

/-- Outcome of `Image.open(BytesIO(data))` followed by `img.format`:
the decode either raises, or produces the `img.format` value (a string or
Python `None`). -/
inductive DecodeOutcome where
  | raises
  | ok (fmt : Option String)

/-- Python `str(None)`: the literal path produced when `file=None` is
string-coerced at line 45 of the source. -/
def noneLiteral : String := "None"

/-- Signature `b"\xff\xd8"` (line 65). -/
def jpegSig : Bytes := [255, 216]

/-- Signature `b"\x89PNG\r\n\x1a\n"` (line 67). -/
def pngSig : Bytes := [137, 80, 78, 71, 13, 10, 26, 10]

/-- Signature `b"GIF87a"` (line 69). -/
def gif87 : Bytes := [71, 73, 70, 56, 55, 97]

/-- Signature `b"GIF89a"` (line 69). -/
def gif89 : Bytes := [71, 73, 70, 56, 57, 97]

/-- Signature `b"BM"` (line 71). -/
def bmpSig : Bytes := [66, 77]

/-- Signature `b"II"` (line 74). -/
def tiffII : Bytes := [73, 73]

/-- Signature `b"MM"` (line 74). -/
def tiffMM : Bytes := [77, 77]

def jpegLabel : String := "jpeg"

def pngLabel : String := "png"

def gifLabel : String := "gif"

def bmpLabel : String := "bmp"

def tiffLabel : String := "tiff"

/-- Python `data.startswith(sig)`: `startsWith data sig` is true when
`sig` is an initial segment of `data`. -/
def startsWith : Bytes → Bytes → Bool
  | _, [] => true
  | [], _ :: _ => false
  | a :: d, b :: s => a == b && startsWith d s

/-- Lines 62-77 of the source: the `if not data` early return followed by
the basic header checks for common image types, in source order. -/
def headerChecks (data : Bytes) : Option String :=
  if data = [] then none
  else if startsWith data jpegSig then some jpegLabel
  else if startsWith data pngSig then some pngLabel
  else if data.take 6 = gif87 ∨ data.take 6 = gif89 then some gifLabel
  else if startsWith data bmpSig then some bmpLabel
  else if startsWith data tiffII = true ∨ startsWith data tiffMM = true then some tiffLabel
  else none

/-- Lines 52-56 of the source: the value the Pillow branch returns, if
any.  `Image.open` raising gives no return (the `except` falls through);
a truthy `img.format` returns `fmt.lower()`; a falsy `img.format`
(Python `None` or the empty string) gives no return. -/
def decodeBranch : DecodeOutcome → Option String
  | DecodeOutcome.raises => Option.none
  | DecodeOutcome.ok fmt =>
    match fmt with
    | Option.none => Option.none
    | Option.some s => if s = "" then Option.none else Option.some (s.toLower)

/-- Lines 36-48 of the source: obtain the header bytes.  `some data` means
`data` holds the bytes to sniff; `none` means the `except` at line 47 hit
and the function returns `None`.  When `h` is given it is used directly;
when `file` is bytes-like its first 32 bytes are taken; otherwise
`open(str(file), "rb")` / `f.read(32)` reads up to 32 bytes of the file at
path `str(file)` (for `file = None` the path is the literal `"None"`). -/
def getData (fs : String → Except Unit Bytes) (file : FileArg) (h : Option Bytes) :
    Option Bytes :=
  match h with
  | Option.some d => Option.some d
  | Option.none =>
    match file with
    | FileArg.bytes b => Option.some (b.take 32)
    | FileArg.path p =>
      match fs p with
      | Except.ok c => Option.some (c.take 32)
      | Except.error _ => Option.none
    | FileArg.none =>
      match fs noneLiteral with
      | Except.ok c => Option.some (c.take 32)
      | Except.error _ => Option.none

/-- Lines 50-77 of the source, given the header bytes `data`: prefer
Pillow when available (returning its answer when the branch produces one,
otherwise falling through), then run the basic header checks. -/
def fromData (dec : Option (Bytes → DecodeOutcome)) (data : Bytes) : Option String :=
  match dec with
  | Option.none => headerChecks data
  | Option.some d =>
    match decodeBranch (d data) with
    | Option.some r => Option.some r
    | Option.none => headerChecks data

/-- The function `what(file, h=None)` (lines 26-77).  The result is `Except.ok v` when
the call returns the value `v` (`Option String`); `Except.error` would
mean an exception escapes to the caller. -/
def what (fs : String → Except Unit Bytes) (dec : Option (Bytes → DecodeOutcome))
    (file : FileArg) (h : Option Bytes) : Except Unit (Option String) :=
  match getData fs file h with
  | Option.none => Except.ok Option.none
  | Option.some data => Except.ok (fromData dec data)

/-! ### Helper lemmas about `startsWith` -/

theorem startsWith_cons_cons (a b : Nat) (d s : Bytes) :
    startsWith (a :: d) (b :: s) = (a == b && startsWith d s) := rfl

theorem startsWith_head (d : Bytes) (b : Nat) (s : Bytes)
    (h : startsWith d (b :: s) = true) : ∃ t, d = b :: t := by
  cases d with
  | nil => simp [startsWith] at h
  | cons a d' =>
    rw [startsWith_cons_cons, Bool.and_eq_true, beq_iff_eq] at h
    exact ⟨d', by rw [h.1]⟩

theorem startsWith_ne_nil (d : Bytes) (b : Nat) (s : Bytes)
    (h : startsWith d (b :: s) = true) : d ≠ [] := by
  obtain ⟨t, rfl⟩ := startsWith_head d b s h
  simp

theorem startsWith_take (s : Bytes) : ∀ (d : Bytes) (n : Nat), s.length ≤ n →
    startsWith (d.take n) s = startsWith d s := by
  induction s with
  | nil => intro d n _; simp [startsWith]
  | cons b s' ih =>
    intro d n hn
    cases d with
    | nil => simp
    | cons a d' =>
      cases n with
      | zero => simp at hn
      | succ m =>
        rw [List.take_succ_cons, startsWith_cons_cons, startsWith_cons_cons,
          ih d' m (Nat.le_of_succ_le_succ hn)]

theorem startsWith_iff_take (s : Bytes) : ∀ d : Bytes,
    startsWith d s = true ↔ d.take s.length = s := by
  induction s with
  | nil => intro d; simp [startsWith]
  | cons b s' ih =>
    intro d
    cases d with
    | nil => simp [startsWith]
    | cons a d' =>
      rw [startsWith_cons_cons, Bool.and_eq_true, beq_iff_eq, List.length_cons,
        List.take_succ_cons, List.cons.injEq]
      exact and_congr Iff.rfl (ih d')

/-! ### Evaluating `headerChecks` under each signature -/

theorem headerChecks_jpeg (d : Bytes) (h : startsWith d jpegSig = true) :
    headerChecks d = some jpegLabel := by
  have hne : d ≠ [] := startsWith_ne_nil d 255 [216] h
  simp [headerChecks, hne, h]

theorem headerChecks_png (d : Bytes) (h : startsWith d pngSig = true) :
    headerChecks d = some pngLabel := by
  obtain ⟨t, rfl⟩ := startsWith_head d 137 _ h
  simp only [headerChecks, jpegSig, startsWith_cons_cons]
  simp [h]

theorem headerChecks_gif (d : Bytes) (h : d.take 6 = gif87 ∨ d.take 6 = gif89) :
    headerChecks d = some gifLabel := by
  have hsw : startsWith d gif87 = true ∨ startsWith d gif89 = true := by
    rcases h with h | h
    · exact Or.inl ((startsWith_iff_take gif87 d).mpr h)
    · exact Or.inr ((startsWith_iff_take gif89 d).mpr h)
  have hhead : ∃ t, d = 71 :: t := by
    rcases hsw with h' | h'
    · exact startsWith_head d 71 _ h'
    · exact startsWith_head d 71 _ h'
  obtain ⟨t, rfl⟩ := hhead
  rw [headerChecks, if_neg (by simp), if_neg (by simp [jpegSig, startsWith]),
    if_neg (by simp [pngSig, startsWith]), if_pos h]

theorem headerChecks_bmp (d : Bytes) (h : startsWith d bmpSig = true) :
    headerChecks d = some bmpLabel := by
  obtain ⟨t, rfl⟩ := startsWith_head d 66 _ h
  rw [headerChecks, if_neg (by simp), if_neg (by simp [jpegSig, startsWith]),
    if_neg (by simp [pngSig, startsWith]), if_neg (by simp [gif87, gif89]), if_pos h]

theorem headerChecks_tiff (d : Bytes)
    (h : startsWith d tiffII = true ∨ startsWith d tiffMM = true) :
    headerChecks d = some tiffLabel := by
  have hhead : (∃ t, d = 73 :: t) ∨ ∃ t, d = 77 :: t := by
    rcases h with h' | h'
    · exact Or.inl (startsWith_head d 73 _ h')
    · exact Or.inr (startsWith_head d 77 _ h')
  rcases hhead with ⟨t, rfl⟩ | ⟨t, rfl⟩ <;>
    rw [headerChecks, if_neg (by simp), if_neg (by simp [jpegSig, startsWith]),
      if_neg (by simp [pngSig, startsWith]), if_neg (by simp [gif87, gif89]),
      if_neg (by simp [bmpSig, startsWith]), if_pos h]

/-! ### Evaluation shapes of `what` -/

theorem what_header (fs : String → Except Unit Bytes)
    (dec : Option (Bytes → DecodeOutcome)) (f : FileArg) (d : Bytes) :
    what fs dec f (some d) = Except.ok (fromData dec d) := rfl

theorem what_bytesArg (fs : String → Except Unit Bytes)
    (dec : Option (Bytes → DecodeOutcome)) (b : Bytes) :
    what fs dec (FileArg.bytes b) Option.none = Except.ok (fromData dec (b.take 32)) := rfl

/-- C1: with the high-level decoder unavailable, any byte buffer starting
with `FF D8` — whether passed as the bytes `file` argument or as the
header — makes `what` return "jpeg", and any byte buffer starting with the
8-byte PNG signature makes `what` return "png". -/
theorem what_jpeg_png (fs : String → Except Unit Bytes) (f : FileArg) (d : Bytes) :
    (startsWith d jpegSig = true →
      what fs Option.none (FileArg.bytes d) Option.none = Except.ok (some jpegLabel)
      ∧ what fs Option.none f (some d) = Except.ok (some jpegLabel))
    ∧ (startsWith d pngSig = true →
      what fs Option.none (FileArg.bytes d) Option.none = Except.ok (some pngLabel)
      ∧ what fs Option.none f (some d) = Except.ok (some pngLabel)) := by
  constructor
  · intro h
    have h32 : startsWith (d.take 32) jpegSig = true := by
      rw [startsWith_take jpegSig d 32 (by simp [jpegSig])]; exact h
    exact ⟨by rw [what_bytesArg]; simp [fromData, headerChecks_jpeg _ h32],
      by rw [what_header]; simp [fromData, headerChecks_jpeg _ h]⟩
  · intro h
    have h32 : startsWith (d.take 32) pngSig = true := by
      rw [startsWith_take pngSig d 32 (by simp [pngSig])]; exact h
    exact ⟨by rw [what_bytesArg]; simp [fromData, headerChecks_png _ h32],
      by rw [what_header]; simp [fromData, headerChecks_png _ h]⟩

def errFs : String → Except Unit Bytes := fun _ => Except.error ()

def sampleJpeg : Bytes := [255, 216, 255, 224, 0, 16]

def samplePng : Bytes := [137, 80, 78, 71, 13, 10, 26, 10, 0, 0]

/-- Witness for C1 at concrete JPEG and PNG buffers. -/
theorem what_jpeg_png_witness :
    what errFs Option.none (FileArg.bytes sampleJpeg) Option.none = Except.ok (some jpegLabel)
    ∧ what errFs Option.none FileArg.none (some samplePng) = Except.ok (some pngLabel) :=
  ⟨((what_jpeg_png errFs FileArg.none sampleJpeg).1 (by decide)).1,
    ((what_jpeg_png errFs FileArg.none samplePng).2 (by decide)).2⟩

/-- C2: with the high-level decoder unavailable, a byte buffer whose first
6 bytes are "GIF87a" or "GIF89a" makes `what` return "gif"; one starting
with "BM" makes `what` return "bmp"; one starting with "II" or "MM" makes
`what` return "tiff" — in each case whether the buffer is passed as the
bytes `file` argument or as the header. -/
theorem what_gif_bmp_tiff (fs : String → Except Unit Bytes) (f : FileArg) (d : Bytes) :
    ((d.take 6 = gif87 ∨ d.take 6 = gif89) →
      what fs Option.none (FileArg.bytes d) Option.none = Except.ok (some gifLabel)
      ∧ what fs Option.none f (some d) = Except.ok (some gifLabel))
    ∧ (startsWith d bmpSig = true →
      what fs Option.none (FileArg.bytes d) Option.none = Except.ok (some bmpLabel)
      ∧ what fs Option.none f (some d) = Except.ok (some bmpLabel))
    ∧ ((startsWith d tiffII = true ∨ startsWith d tiffMM = true) →
      what fs Option.none (FileArg.bytes d) Option.none = Except.ok (some tiffLabel)
      ∧ what fs Option.none f (some d) = Except.ok (some tiffLabel)) := by
  refine ⟨fun h => ?_, fun h => ?_, fun h => ?_⟩
  · have h32 : (d.take 32).take 6 = d.take 6 := by
      rw [List.take_take]; norm_num
    exact ⟨by rw [what_bytesArg]; simp [fromData, headerChecks_gif _ (by rw [h32]; exact h)],
      by rw [what_header]; simp [fromData, headerChecks_gif _ h]⟩
  · have h32 : startsWith (d.take 32) bmpSig = true := by
      rw [startsWith_take bmpSig d 32 (by simp [bmpSig])]; exact h
    exact ⟨by rw [what_bytesArg]; simp [fromData, headerChecks_bmp _ h32],
      by rw [what_header]; simp [fromData, headerChecks_bmp _ h]⟩
  · have h32 : startsWith (d.take 32) tiffII = true ∨ startsWith (d.take 32) tiffMM = true := by
      rw [startsWith_take tiffII d 32 (by simp [tiffII]),
        startsWith_take tiffMM d 32 (by simp [tiffMM])]
      exact h
    exact ⟨by rw [what_bytesArg]; simp [fromData, headerChecks_tiff _ h32],
      by rw [what_header]; simp [fromData, headerChecks_tiff _ h]⟩

def sampleGif : Bytes := [71, 73, 70, 56, 57, 97, 1, 0]

def sampleBmp : Bytes := [66, 77, 54, 0]

def sampleTiff : Bytes := [77, 77, 0, 42]

/-- Witness for C2 at concrete GIF, BMP and TIFF buffers. -/
theorem what_gif_bmp_tiff_witness :
    what errFs Option.none (FileArg.bytes sampleGif) Option.none = Except.ok (some gifLabel)
    ∧ what errFs Option.none FileArg.none (some sampleBmp) = Except.ok (some bmpLabel)
    ∧ what errFs Option.none (FileArg.bytes sampleTiff) Option.none
        = Except.ok (some tiffLabel) :=
  ⟨((what_gif_bmp_tiff errFs FileArg.none sampleGif).1 (by decide)).1,
    ((what_gif_bmp_tiff errFs FileArg.none sampleBmp).2.1 (by decide)).2,
    ((what_gif_bmp_tiff errFs FileArg.none sampleTiff).2.2 (by decide)).1⟩

def raisingDec : Option (Bytes → DecodeOutcome) := some (fun _ => DecodeOutcome.raises)

/-- C3: an empty byte buffer — passed as header, passed as the bytes
`file` argument, or read from a file whose contents are empty — yields
`None`, and a path whose open or read raises yields `None`; in every case
the call returns normally (`Except.ok`), no exception reaching the
caller.  The decoder hypothesis says Pillow (when present) does not
identify the empty buffer, which is how `Image.open` behaves on empty
input. -/
theorem what_empty_or_unreadable (fs : String → Except Unit Bytes)
    (dec : Option (Bytes → DecodeOutcome)) (f : FileArg) (p : String)
    (hdec : ∀ g, dec = some g → decodeBranch (g []) = Option.none) :
    what fs dec f (some []) = Except.ok Option.none
    ∧ what fs dec (FileArg.bytes []) Option.none = Except.ok Option.none
    ∧ (fs p = Except.error () → what fs dec (FileArg.path p) Option.none
        = Except.ok Option.none)
    ∧ (fs p = Except.ok [] → what fs dec (FileArg.path p) Option.none
        = Except.ok Option.none) := by
  have hfrom : fromData dec [] = Option.none := by
    cases dec with
    | none => rfl
    | some g => simp [fromData, hdec g rfl, headerChecks]
  refine ⟨?_, ?_, fun hfs => ?_, fun hfs => ?_⟩
  · rw [what_header, hfrom]
  · rw [what_bytesArg]; simp [hfrom]
  · simp [what, getData, hfs]
  · simp [what, getData, hfs, hfrom]

/-- Witness for C3: empty header with Pillow present (raising on the empty
buffer), and an unreadable path. -/
theorem what_empty_or_unreadable_witness :
    what errFs raisingDec FileArg.none (some []) = Except.ok Option.none
    ∧ what errFs raisingDec (FileArg.path noneLiteral) Option.none
        = Except.ok Option.none :=
  ⟨(what_empty_or_unreadable errFs raisingDec FileArg.none noneLiteral
      (by intro g hg; cases hg; rfl)).1,
    (what_empty_or_unreadable errFs raisingDec FileArg.none noneLiteral
      (by intro g hg; cases hg; rfl)).2.2.1 rfl⟩

/-- C4: `what` is total and never surfaces an exception: on every
combination of filesystem, decoder, `file` argument and header argument
the call returns normally with some optional string. -/
theorem what_never_raises (fs : String → Except Unit Bytes)
    (dec : Option (Bytes → DecodeOutcome)) (f : FileArg) (h : Option Bytes) :
    ∃ v : Option String, what fs dec f h = Except.ok v := by
  cases hg : getData fs f h with
  | none => exact ⟨Option.none, by simp [what, hg]⟩
  | some data => exact ⟨fromData dec data, by simp [what, hg]⟩

/-- C5: when the header argument is present (even empty), the result of
`what` is independent of the `file` argument and of the filesystem: no
file is opened or read. -/
theorem what_header_ignores_file (fs₁ fs₂ : String → Except Unit Bytes)
    (dec : Option (Bytes → DecodeOutcome)) (f₁ f₂ : FileArg) (hdr : Bytes) :
    what fs₁ dec f₁ (some hdr) = what fs₂ dec f₂ (some hdr) := rfl

/-- C6: when Pillow is available it is tried first — a decode that
succeeds with a truthy format wins outright and the format is returned
lowercased; a decode that raises silently falls through to the
empty-buffer check and the signature matching (`headerChecks`). -/
theorem what_decoder_preferred (fs : String → Except Unit Bytes) (f : FileArg)
    (d : Bytes) (g : Bytes → DecodeOutcome) :
    (∀ s : String, g d = DecodeOutcome.ok (some s) → s ≠ "" →
      what fs (some g) f (some d) = Except.ok (some (s.toLower)))
    ∧ (g d = DecodeOutcome.raises →
      what fs (some g) f (some d) = Except.ok (headerChecks d)) := by
  constructor
  · intro s hg hne2
    rw [what_header]
    simp [fromData, hg, decodeBranch, hne2]
  · intro hg
    rw [what_header]
    simp [fromData, hg, decodeBranch]

def fmtUpper : String := "JPEG"

def constDec : Option (Bytes → DecodeOutcome) := some (fun _ => DecodeOutcome.ok (some fmtUpper))

/-- Witness for C6: a decoder reporting "JPEG" wins (lowercased), and a
raising decoder falls through to the signature checks. -/
theorem what_decoder_preferred_witness :
    what errFs constDec FileArg.none (some sampleBmp) = Except.ok (some (fmtUpper.toLower))
    ∧ what errFs raisingDec FileArg.none (some sampleBmp)
        = Except.ok (headerChecks sampleBmp) :=
  ⟨(what_decoder_preferred errFs FileArg.none sampleBmp
      (fun _ => DecodeOutcome.ok (some fmtUpper))).1 fmtUpper rfl (by decide),
    (what_decoder_preferred errFs FileArg.none sampleBmp
      (fun _ => DecodeOutcome.raises)).2 rfl⟩

/-- C9: when Pillow opens the buffer but reports a falsy format (Python
`None` or the empty string), `what` does not return it: the call falls
through to the empty-buffer check and the signature matching, exactly as
when the decode raises. -/
theorem what_decoder_falsy_format (fs : String → Except Unit Bytes) (f : FileArg)
    (d : Bytes) (g : Bytes → DecodeOutcome) :
    (g d = DecodeOutcome.ok Option.none →
      what fs (some g) f (some d) = Except.ok (headerChecks d))
    ∧ (∀ s : String, g d = DecodeOutcome.ok (some s) → s = "" →
      what fs (some g) f (some d) = Except.ok (headerChecks d)) := by
  constructor
  · intro hg
    rw [what_header]
    simp [fromData, hg, decodeBranch]
  · intro s hg hs
    rw [what_header]
    simp [fromData, hg, decodeBranch, hs]

def emptyString : String := ""

def noFmtDec : Option (Bytes → DecodeOutcome) := some (fun _ => DecodeOutcome.ok Option.none)

def emptyFmtDec : Option (Bytes → DecodeOutcome) :=
  some (fun _ => DecodeOutcome.ok (some emptyString))

/-- Witness for C9: decoders reporting no format and an empty-string
format both fall through to the signature checks. -/
theorem what_decoder_falsy_format_witness :
    what errFs noFmtDec FileArg.none (some sampleGif) = Except.ok (headerChecks sampleGif)
    ∧ what errFs emptyFmtDec FileArg.none (some sampleGif)
        = Except.ok (headerChecks sampleGif) :=
  ⟨(what_decoder_falsy_format errFs FileArg.none sampleGif
      (fun _ => DecodeOutcome.ok Option.none)).1 rfl,
    (what_decoder_falsy_format errFs FileArg.none sampleGif
      (fun _ => DecodeOutcome.ok (some emptyString))).2 emptyString rfl rfl⟩

/-- C10: with both arguments absent, `what` does not return early: it
behaves exactly as if called on the path `"None"` (the string coercion of
Python `None`), attempting to open and read that path; the fetch stage
yields an absent result precisely when that open or read fails, and
otherwise the read bytes are sniffed as usual. -/
theorem what_none_file_opens_none_path (fs : String → Except Unit Bytes)
    (dec : Option (Bytes → DecodeOutcome)) :
    what fs dec FileArg.none Option.none = what fs dec (FileArg.path noneLiteral) Option.none
    ∧ what fs dec FileArg.none Option.none =
        Except.ok (match fs noneLiteral with
          | Except.error _ => Option.none
          | Except.ok c => fromData dec (c.take 32)) := by
  refine ⟨rfl, ?_⟩
  cases hfs : fs noneLiteral <;> simp [what, getData, hfs]

/-- The function `headerChecks` inspects at most the first 32 bytes. -/
theorem headerChecks_take32 (d : Bytes) : headerChecks (d.take 32) = headerChecks d := by
  have h0 : (d.take 32 = []) ↔ (d = []) := by
    cases d with
    | nil => simp
    | cons a t => simp
  have h1 := startsWith_take jpegSig d 32 (by norm_num [jpegSig])
  have h2 := startsWith_take pngSig d 32 (by norm_num [pngSig])
  have h3 := startsWith_take bmpSig d 32 (by norm_num [bmpSig])
  have h4 := startsWith_take tiffII d 32 (by norm_num [tiffII])
  have h5 := startsWith_take tiffMM d 32 (by norm_num [tiffMM])
  have h6 : (d.take 32).take 6 = d.take 6 := by
    rw [List.take_take]; norm_num
  simp only [headerChecks, h0, h1, h2, h3, h4, h5, h6]

/-- C7: with the high-level decoder unavailable, `what` inspects at most
the first 32 bytes — two inputs agreeing on their first 32 bytes give the
same result, whether each is passed as a bytes `file` argument or as a
header. -/
theorem what_first_32_bytes (d₁ d₂ : Bytes) (fs₁ fs₂ : String → Except Unit Bytes)
    (f₁ f₂ : FileArg) (h : d₁.take 32 = d₂.take 32) :
    what fs₁ Option.none (FileArg.bytes d₁) Option.none
        = what fs₂ Option.none (FileArg.bytes d₂) Option.none
    ∧ what fs₁ Option.none f₁ (some d₁) = what fs₂ Option.none f₂ (some d₂)
    ∧ what fs₁ Option.none (FileArg.bytes d₁) Option.none
        = what fs₂ Option.none f₂ (some d₂) := by
  have key : headerChecks d₁ = headerChecks d₂ := by
    rw [← headerChecks_take32 d₁, h, headerChecks_take32 d₂]
  refine ⟨?_, ?_, ?_⟩
  · rw [what_bytesArg, what_bytesArg]
    simp [fromData, headerChecks_take32, key]
  · rw [what_header, what_header]
    simp [fromData, key]
  · rw [what_bytesArg, what_header]
    simp [fromData, headerChecks_take32, key]

def sample32 : Bytes := jpegSig ++ List.replicate 30 0

def sample33 : Bytes := sample32 ++ [7]

/-- Witness for C7: a 32-byte JPEG-signature buffer and its 33-byte
extension agree on their first 32 bytes and classify identically. -/
theorem what_first_32_bytes_witness :
    what errFs Option.none (FileArg.bytes sample32) Option.none
        = what errFs Option.none (FileArg.bytes sample33) Option.none
    ∧ what errFs Option.none FileArg.none (some sample32)
        = what errFs Option.none FileArg.none (some sample33) :=
  ⟨(what_first_32_bytes sample32 sample33 errFs errFs FileArg.none FileArg.none
      (by decide)).1,
    (what_first_32_bytes sample32 sample33 errFs errFs FileArg.none FileArg.none
      (by decide)).2.1⟩

/-! ### The five signature rules of lines 65-75 as data, for C8 -/

/-- A rule matches when any of its alternative signatures is an initial
segment of the buffer (the source's gif membership test `data[:6] in
(b"GIF87a", b"GIF89a")` is the same as matching either 6-byte initial
segment, see `startsWith_iff_take`). -/
def ruleMatches (alts : List Bytes) (d : Bytes) : Bool :=
  alts.any (fun s => startsWith d s)

/-- The five signature rules of lines 65-75, in source order: each rule
is its list of alternative signatures paired with its label. -/
def rules : List (List Bytes × String) :=
  [([jpegSig], jpegLabel), ([pngSig], pngLabel), ([gif87, gif89], gifLabel),
    ([bmpSig], bmpLabel), ([tiffII, tiffMM], tiffLabel)]

/-- First-match evaluation of a rule list, as the source's if-chain does
for `rules`. -/
def firstMatch (l : List (List Bytes × String)) (d : Bytes) : Option String :=
  (l.find? (fun r => ruleMatches r.1 d)).map (fun r => r.2)

/-- Proof auxiliary: the unique rule a buffer with first byte `a` could
match, read off from the first bytes of the signatures. -/
def headRule (a : Nat) : Option (List Bytes × String) :=
  if a = 255 then some ([jpegSig], jpegLabel)
  else if a = 137 then some ([pngSig], pngLabel)
  else if a = 71 then some ([gif87, gif89], gifLabel)
  else if a = 66 then some ([bmpSig], bmpLabel)
  else if a = 73 ∨ a = 77 then some ([tiffII, tiffMM], tiffLabel)
  else none

theorem rules_match_headRule (r : List Bytes × String) (hr : r ∈ rules) (d : Bytes)
    (hm : ruleMatches r.1 d = true) : ∃ a t, d = a :: t ∧ headRule a = some r := by
  simp only [rules, List.mem_cons, List.not_mem_nil, or_false] at hr
  rcases hr with rfl | rfl | rfl | rfl | rfl
  · obtain ⟨t, rfl⟩ := startsWith_head d 255 [216] (by simpa [ruleMatches, jpegSig] using hm)
    exact ⟨255, t, rfl, by simp [headRule]⟩
  · obtain ⟨t, rfl⟩ := startsWith_head d 137 [80, 78, 71, 13, 10, 26, 10]
      (by simpa [ruleMatches, pngSig] using hm)
    exact ⟨137, t, rfl, by simp [headRule]⟩
  · have hm' : startsWith d gif87 = true ∨ startsWith d gif89 = true := by
      simpa [ruleMatches] using hm
    have : ∃ t, d = 71 :: t := by
      rcases hm' with h' | h'
      · exact startsWith_head d 71 [73, 70, 56, 55, 97] (by simpa [gif87] using h')
      · exact startsWith_head d 71 [73, 70, 56, 57, 97] (by simpa [gif89] using h')
    obtain ⟨t, rfl⟩ := this
    exact ⟨71, t, rfl, by simp [headRule]⟩
  · obtain ⟨t, rfl⟩ := startsWith_head d 66 [77] (by simpa [ruleMatches, bmpSig] using hm)
    exact ⟨66, t, rfl, by simp [headRule]⟩
  · have hm' : startsWith d tiffII = true ∨ startsWith d tiffMM = true := by
      simpa [ruleMatches] using hm
    rcases hm' with h' | h'
    · obtain ⟨t, rfl⟩ := startsWith_head d 73 [73] (by simpa [tiffII] using h')
      exact ⟨73, t, rfl, by simp [headRule]⟩
    · obtain ⟨t, rfl⟩ := startsWith_head d 77 [77] (by simpa [tiffMM] using h')
      exact ⟨77, t, rfl, by simp [headRule]⟩

theorem rules_disjoint (d : Bytes) (r₁ : List Bytes × String) (h₁ : r₁ ∈ rules)
    (r₂ : List Bytes × String) (h₂ : r₂ ∈ rules)
    (hm₁ : ruleMatches r₁.1 d = true) (hm₂ : ruleMatches r₂.1 d = true) : r₁ = r₂ := by
  obtain ⟨a, t, rfl, hr₁⟩ := rules_match_headRule r₁ h₁ d hm₁
  obtain ⟨a', t', he, hr₂⟩ := rules_match_headRule r₂ h₂ (a :: t) hm₂
  obtain ⟨rfl, rfl⟩ : a = a' ∧ t = t' := by
    exact ⟨(List.cons.injEq .. ▸ congrArg id he : _ ∧ _).1, (List.cons.injEq .. ▸ he : _ ∧ _).2⟩
  rw [hr₁] at hr₂
  exact Option.some.inj hr₂

/-- Proof auxiliary: `find?` is permutation-invariant when at most one
element satisfies the test. -/
theorem find?_congr_of_perm {α : Type} (p : α → Bool) {l₁ l₂ : List α}
    (hp : List.Perm l₁ l₂) :
    (∀ a ∈ l₂, ∀ b ∈ l₂, p a = true → p b = true → a = b) →
    l₁.find? p = l₂.find? p := by
  induction hp with
  | nil => intro _; rfl
  | cons x h ih =>
    intro hu
    by_cases hx : p x = true
    · rw [List.find?_cons_of_pos _ hx, List.find?_cons_of_pos _ hx]
    · rw [List.find?_cons_of_neg _ hx, List.find?_cons_of_neg _ hx]
      exact ih fun a ha b hb ja jb => hu a (List.mem_cons_of_mem x ha) b (List.mem_cons_of_mem x hb) ja jb
  | swap x y l =>
    intro hu
    by_cases hx : p x = true <;> by_cases hy : p y = true
    · have hxy : x = y :=
        hu x (List.mem_cons_self x _) y (List.mem_cons_of_mem x (List.mem_cons_self y _)) hx hy
      rw [hxy]
    · rw [List.find?_cons_of_neg _ hy, List.find?_cons_of_pos _ hx,
        List.find?_cons_of_pos _ hx]
    · rw [List.find?_cons_of_pos _ hy, List.find?_cons_of_neg _ hx,
        List.find?_cons_of_pos _ hy]
    · rw [List.find?_cons_of_neg _ hy, List.find?_cons_of_neg _ hx,
        List.find?_cons_of_neg _ hx, List.find?_cons_of_neg _ hy]
  | trans h₁ h₂ ih₁ ih₂ =>
    intro hu
    refine (ih₁ fun a ha b hb ja jb => hu a (h₂.subset ha) b (h₂.subset hb) ja jb).trans (ih₂ hu)

theorem headerChecks_eq_firstMatch (d : Bytes) (hne : d ≠ []) :
    headerChecks d = firstMatch rules d := by
  simp only [headerChecks, firstMatch, rules, if_neg hne]
  by_cases h1 : startsWith d jpegSig = true
  · rw [if_pos h1, List.find?_cons_of_pos _ (by simpa [ruleMatches] using h1)]
    rfl
  · rw [if_neg h1, List.find?_cons_of_neg _ (by simpa [ruleMatches] using h1)]
    by_cases h2 : startsWith d pngSig = true
    · rw [if_pos h2, List.find?_cons_of_pos _ (by simpa [ruleMatches] using h2)]
      rfl
    · rw [if_neg h2, List.find?_cons_of_neg _ (by simpa [ruleMatches] using h2)]
      have hgif : (ruleMatches [gif87, gif89] d = true)
          ↔ (d.take 6 = gif87 ∨ d.take 6 = gif89) := by
        rw [show ruleMatches [gif87, gif89] d = (startsWith d gif87 || startsWith d gif89)
            from by simp [ruleMatches], Bool.or_eq_true, startsWith_iff_take,
          startsWith_iff_take]
        rfl
      by_cases h3 : d.take 6 = gif87 ∨ d.take 6 = gif89
      · rw [if_pos h3, List.find?_cons_of_pos _ (by exact hgif.mpr h3)]
        rfl
      · rw [if_neg h3, List.find?_cons_of_neg _ (by simpa [hgif] using h3)]
        by_cases h4 : startsWith d bmpSig = true
        · rw [if_pos h4, List.find?_cons_of_pos _ (by simpa [ruleMatches] using h4)]
          rfl
        · rw [if_neg h4, List.find?_cons_of_neg _ (by simpa [ruleMatches] using h4)]
          by_cases h5 : startsWith d tiffII = true ∨ startsWith d tiffMM = true
          · rw [if_pos h5, List.find?_cons_of_pos _ (by simpa [ruleMatches] using h5)]
            rfl
          · rw [if_neg h5, List.find?_cons_of_neg _ (by simpa [ruleMatches] using h5)]
            rfl

/-- C8: the five signature rules are pairwise disjoint — the five rules
are distinct and no byte buffer matches two of them — so first-match
evaluation of any reordering of the rule list agrees with the source
order, which itself is what the if-chain of lines 65-75 computes on a
nonempty buffer. -/
theorem sig_rules_disjoint_and_order_free :
    (∀ d : Bytes, ∀ r₁ ∈ rules, ∀ r₂ ∈ rules,
      ruleMatches r₁.1 d = true → ruleMatches r₂.1 d = true → r₁ = r₂)
    ∧ rules.Pairwise (fun r₁ r₂ => r₁ ≠ r₂)
    ∧ (∀ (l : List (List Bytes × String)) (d : Bytes), List.Perm l rules →
      firstMatch l d = firstMatch rules d)
    ∧ (∀ d : Bytes, d ≠ [] → headerChecks d = firstMatch rules d) := by
  refine ⟨fun d r₁ h₁ r₂ h₂ => rules_disjoint d r₁ h₁ r₂ h₂, by decide, ?_, headerChecks_eq_firstMatch⟩
  intro l d hp
  exact congrArg (Option.map fun r => r.2)
    (find?_congr_of_perm (fun r => ruleMatches r.1 d) hp
      (fun a ha b hb ja jb => rules_disjoint d a ha b hb ja jb))

/-- Witness for C8: the disjointness instance at a concrete buffer, a
concrete reordering (the reversed rule list), and the if-chain agreement
at a concrete buffer. -/
theorem sig_rules_disjoint_and_order_free_witness :
    ([jpegSig], jpegLabel) = ([jpegSig], jpegLabel)
    ∧ firstMatch rules.reverse sampleTiff = firstMatch rules sampleTiff
    ∧ headerChecks samplePng = firstMatch rules samplePng :=
  ⟨sig_rules_disjoint_and_order_free.1 sampleJpeg ([jpegSig], jpegLabel) (by decide)
      ([jpegSig], jpegLabel) (by decide) (by decide) (by decide),
    sig_rules_disjoint_and_order_free.2.2.1 rules.reverse sampleTiff (List.reverse_perm rules),
    sig_rules_disjoint_and_order_free.2.2.2 samplePng (by decide)⟩
